import Mathlib

/-!
Verification of the event-hook subsystem of the `mouce` mouse-control
library.

The definitions below are a shallow embedding of the Rust sources:

* `src/common.rs`   — `MouseButton`, `ScrollDirection`, `MouseEvent`,
  `CallbackId` (a `u8`);
* `src/error.rs`    — the `Error` enum;
* `src/nix/mod.rs`  — `start_nix_listener` (device-file discovery, dedup
  and open; the evdev fan-in normalizer; the dispatch loop);
* `src/nix/uinput.rs`, `src/nix/x11.rs` — the manager state
  (`callbacks`, `callback_counter`, `is_listening`) and the `hook` /
  `unhook` / `unhook_all` operations (the Windows and Darwin managers in
  `src/windows.rs` / `src/darwin.rs` have the same shape once their
  lazily-initialized global `CALLBACKS` map exists);
* `src/windows.rs`  — `low_level_mouse_handler` and `get_delta`;
* `src/darwin.rs`   — the `ScrollWheel` branch of
  `mouse_on_event_callback`.

The callback registry (`HashMap<CallbackId, Box<dyn Fn(&MouseEvent)>>`)
is modelled as an association list `List (Nat × Nat)` from id to an
opaque callback token; `HashMap` semantics (at most one entry per key)
is reflected by `insertId` replacing the entry at an existing key and
by the `KeysNodup` invariant.  The `u8` id counter is a `Nat` kept
below 256 by reducing `% 256` at the increment, matching release-mode
wrapping of `callback_counter += 1`.
-/

/-- Mirrors `MouseButton` from `src/common.rs`. -/
inductive MouseButton
  | Left
  | Middle
  | Right
  deriving DecidableEq

/-- Mirrors the four-variant `ScrollDirection` from `src/common.rs`
(the variant list compiled on linux/bsd/windows; Darwin also constructs
all four). -/
inductive ScrollDirection
  | Up
  | Down
  | Left
  | Right
  deriving DecidableEq

/-- Mirrors `MouseEvent` from `src/common.rs`: `Scroll` carries only a
direction.  This is the event type constructed by the Windows and
Darwin normalizers. -/
inductive MouseEvent
  | RelativeMove (dx dy : Int)
  | AbsoluteMove (x y : Int)
  | Press (b : MouseButton)
  | Release (b : MouseButton)
  | Scroll (d : ScrollDirection)
  deriving DecidableEq

/-- The event type constructed by the nix fan-in thread in
`src/nix/mod.rs`, whose `Scroll` carries a direction and a magnitude
(`received.value.unsigned_abs()`). -/
inductive NixMouseEvent
  | RelativeMove (dx dy : Int)
  | AbsoluteMove (x y : Int)
  | Press (b : MouseButton)
  | Release (b : MouseButton)
  | Scroll (d : ScrollDirection) (amount : Nat)
  deriving DecidableEq

/-- Mirrors `Error` from `src/error.rs` (without the payload of
`CustomError`, which the hook subsystem never constructs).  The
`std::io` error with kind `NotFound` returned by
`UInputMouseManager::unhook` is identified with `UnhookFailed`, the
value returned at the same point by every other backend. -/
inductive Error
  | NotImplemented
  | WriteFailed
  | UnhookFailed
  | X11PointerWindowMismatch
  | InputIsBlocked
  | CGCouldNotCreateEvent
  | PermissionDenied
  deriving DecidableEq

/-! ## The callback registry

`HashMap<CallbackId, callback>` as an association list from id to an
opaque callback token. -/

/-- `HashMap::get`-style lookup: the value stored at key `id`. -/
def lookupId (id : Nat) : List (Nat × Nat) → Option Nat
  | [] => none
  | p :: rest => if p.1 == id then some p.2 else lookupId id rest

/-- `HashMap::insert`: replace the entry at `id` if present, otherwise
add one. -/
def insertId (id v : Nat) : List (Nat × Nat) → List (Nat × Nat)
  | [] => [(id, v)]
  | p :: rest => if p.1 == id then (id, v) :: rest else p :: insertId id v rest

/-- `HashMap::remove`: drop the entry at `id` (on a map with distinct
keys, dropping every entry at `id` drops exactly that one entry). -/
def removeId (id : Nat) (m : List (Nat × Nat)) : List (Nat × Nat) :=
  m.filter (fun p => p.1 != id)

/-- Keys of the registry are pairwise distinct — the `HashMap`
representation invariant. -/
def KeysNodup (m : List (Nat × Nat)) : Prop :=
  (m.map (fun p => p.1)).Nodup

/-! ## The listener start (`start_nix_listener`, `src/nix/mod.rs`)

The glob discovery yields a list of canonical device-file paths;
whether a given path can be opened for read is a property of that file,
modelled by `openable : String → Bool`.  The loop skips a path already
seen (`previous_paths.contains`) and aborts with `PermissionDenied` on
the first failing `File::open`. -/

/-- The device-open loop of `start_nix_listener`: `paths` are the
discovered (symlink-resolved) device paths in glob order, `seen` is
`previous_paths`. -/
def start_nix_listener (openable : String → Bool) :
    List String → List String → Except Error Unit
  | [], _ => .ok ()
  | p :: rest, seen =>
    if seen.contains p then
      start_nix_listener openable rest seen
    else if openable p then
      start_nix_listener openable rest (p :: seen)
    else
      .error .PermissionDenied

/-! ## Manager state and the hook/unhook operations -/

/-- The mutable state of one mouse manager
(`UInputMouseManager`/`X11MouseManager`; the Windows/Darwin managers
keep `callbacks` in a global but behave identically once it is
initialized). -/
structure ManagerState where
  callbacks : List (Nat × Nat)
  callback_counter : Nat
  is_listening : Bool
  deriving DecidableEq

/-- A freshly constructed manager: empty registry, counter 0, not
listening. -/
def initialState : ManagerState :=
  { callbacks := [], callback_counter := 0, is_listening := false }

/-- `hook` from `src/nix/uinput.rs` / `src/nix/x11.rs`: start the
listener if not yet listening (propagating its error), then insert the
callback at the current counter value and increment the `u8` counter
(wrapping mod 256).  The final `Bool` is ghost instrumentation: `true`
exactly when this call started the listener. -/
def hook (s : ManagerState) (cb : Nat) (openable : String → Bool)
    (paths : List String) : Except Error Nat × ManagerState × Bool :=
  if s.is_listening then
    (.ok s.callback_counter,
      { s with
        callbacks := insertId s.callback_counter cb s.callbacks
        callback_counter := (s.callback_counter + 1) % 256 },
      false)
  else
    match start_nix_listener openable paths [] with
    | .ok () =>
      (.ok s.callback_counter,
        { s with
          callbacks := insertId s.callback_counter cb s.callbacks
          callback_counter := (s.callback_counter + 1) % 256
          is_listening := true },
        true)
    | .error e => (.error e, s, false)

/-- `unhook`: remove the entry for `callback_id`; `UnhookFailed` (io
`NotFound` in the uinput backend) when the id is absent. -/
def unhook (s : ManagerState) (callback_id : Nat) :
    Except Error Unit × ManagerState :=
  match lookupId callback_id s.callbacks with
  | some _ => (.ok (), { s with callbacks := removeId callback_id s.callbacks })
  | none => (.error .UnhookFailed, s)

/-- `unhook_all`: clear the registry, always `Ok`. -/
def unhook_all (s : ManagerState) : Except Error Unit × ManagerState :=
  (.ok (), { s with callbacks := [] })

/-! ## Operation traces -/

/-- One user-facing registry operation. -/
inductive Op
  | hook (cb : Nat) (openable : String → Bool) (paths : List String)
  | unhook (id : Nat)
  | unhookAll

/-- Result of running a trace: final state, number of successful
listener starts, and the ids returned by the successful hook calls in
order. -/
structure RunResult where
  state : ManagerState
  starts : Nat
  ids : List Nat
  deriving DecidableEq

/-- Run a list of operations from a state. -/
def runOps (s : ManagerState) : List Op → RunResult
  | [] => ⟨s, 0, []⟩
  | Op.hook cb openable paths :: rest =>
    match hook s cb openable paths with
    | (.ok id, s1, started) =>
      let r := runOps s1 rest
      ⟨r.state, (if started then 1 else 0) + r.starts, id :: r.ids⟩
    | (.error _, s1, _) =>
      runOps s1 rest
  | Op.unhook id :: rest => runOps (unhook s id).2 rest
  | Op.unhookAll :: rest => runOps (unhook_all s).2 rest

/-- The number of hook operations in a trace (successful or not). -/
def hookCount : List Op → Nat
  | [] => 0
  | Op.hook _ _ _ :: rest => hookCount rest + 1
  | _ :: rest => hookCount rest

/-- Whether an operation explicitly removes the entry of `id`. -/
def touches (id : Nat) : Op → Bool
  | Op.unhook j => j == id
  | Op.unhookAll => true
  | Op.hook _ _ _ => false

/-- A trace of `n` hook calls on a manager with no discovered devices
(the `start_nix_listener` glob finds nothing, so every call succeeds);
the `k`-th call registers the distinct callback token `k`. -/
def hookOps (n : Nat) : List Op :=
  (List.range n).map (fun k => Op.hook k (fun _ => true) [])

/-! ## The evdev normalizer (fan-in thread of `start_nix_listener`,
`src/nix/mod.rs` lines 96–157)

A raw `input_event` record is `(type, code, value)` with `type` and
`code` unsigned 16-bit and `value` signed 32-bit.  The constants are
those of `src/nix/uinput.rs`. -/

/-- Raw kernel input record (`InputEvent` in `src/nix/uinput.rs`,
ignoring the timestamp, which the normalizer never reads).  `type` is a
Rust keyword there (`r#type`); here the field is `type_`. -/
structure InputEvent where
  type_ : Nat
  code : Nat
  value : Int
  deriving DecidableEq

def EV_KEY : Nat := 0x01
def EV_REL : Nat := 0x02
def REL_X : Nat := 0x00
def REL_Y : Nat := 0x01
def REL_HWHEEL : Nat := 0x06
def REL_WHEEL : Nat := 0x08
def BTN_LEFT : Nat := 0x110
def BTN_RIGHT : Nat := 0x111
def BTN_MIDDLE : Nat := 0x112

/-- The per-record normalization performed by the fan-in thread in
`start_nix_listener`: `none` models `continue` (record dropped). -/
def nixNormalize (received : InputEvent) : Option NixMouseEvent :=
  if received.type_ = EV_KEY then
    match
      (if received.code = BTN_LEFT then some MouseButton.Left
       else if received.code = BTN_RIGHT then some MouseButton.Right
       else if received.code = BTN_MIDDLE then some MouseButton.Middle
       else none) with
    | some button =>
      if received.value = 1 then some (.Press button)
      else some (.Release button)
    | none => none
  else if received.type_ = EV_REL then
    if received.code = REL_WHEEL then
      some (.Scroll (if received.value > 0 then .Up else .Down)
        received.value.natAbs)
    else if received.code = REL_HWHEEL then
      some (.Scroll (if received.value > 0 then .Right else .Left)
        received.value.natAbs)
    else if received.code = REL_X then
      some (.RelativeMove received.value 0)
    else if received.code = REL_Y then
      some (.RelativeMove 0 received.value)
    else none
  else none

/-! ## The Windows normalizer (`low_level_mouse_handler`,
`src/windows.rs`) -/

def WM_MOUSEMOVE : Nat := 0x0200
def WM_LBUTTONDOWN : Nat := 0x0201
def WM_LBUTTONUP : Nat := 0x0202
def WM_RBUTTONDOWN : Nat := 0x0204
def WM_RBUTTONUP : Nat := 0x0205
def WM_MBUTTONDOWN : Nat := 0x0207
def WM_MBUTTONUP : Nat := 0x0208
def WM_MOUSEWHEEL : Nat := 0x020A
def WM_MOUSEHWHEEL : Nat := 0x020E
def WHEEL_DELTA : Nat := 120

/-- `get_delta` from `src/windows.rs`: the high 16-bit word of the
32-bit `mouse_data` field, as an unsigned 16-bit value
(`((mouse_data >> 16) & 0xffff) as Word` with `Word = c_ushort`). -/
def get_delta (mouse_data : Nat) : Nat :=
  (mouse_data / 65536) % 65536

/-- The event normalization inside `low_level_mouse_handler`
(`src/windows.rs`): `w_param` selects the message kind, `(x, y)` is the
hook-struct point and `mouse_data` its raw 32-bit data field.  Note the
wheel branches divide the *unsigned* 16-bit delta word by
`WHEEL_DELTA` and compare the quotient with 1. -/
def low_level_mouse_handler (w_param : Nat) (x y : Int)
    (mouse_data : Nat) : Option MouseEvent :=
  if w_param = WM_MOUSEMOVE then some (.AbsoluteMove x y)
  else if w_param = WM_LBUTTONDOWN then some (.Press .Left)
  else if w_param = WM_MBUTTONDOWN then some (.Press .Middle)
  else if w_param = WM_RBUTTONDOWN then some (.Press .Right)
  else if w_param = WM_LBUTTONUP then some (.Release .Left)
  else if w_param = WM_MBUTTONUP then some (.Release .Middle)
  else if w_param = WM_RBUTTONUP then some (.Release .Right)
  else if w_param = WM_MOUSEWHEEL then
    if get_delta mouse_data / WHEEL_DELTA = 1 then some (.Scroll .Up)
    else some (.Scroll .Down)
  else if w_param = WM_MOUSEHWHEEL then
    if get_delta mouse_data / WHEEL_DELTA = 1 then some (.Scroll .Right)
    else some (.Scroll .Left)
  else none

/-- The signed 16-bit wheel delta as it sits in the high word of
`mouse_data` (two's-complement encoding of `d` into an unsigned
16-bit value). -/
def i16AsU16 (d : Int) : Nat :=
  (d % 65536).toNat

/-- A `WM_MOUSEWHEEL` message whose high `mouse_data` word is
`deltaWord`. -/
def winWheelVertical (deltaWord : Nat) : Option MouseEvent :=
  low_level_mouse_handler WM_MOUSEWHEEL 0 0 (deltaWord * 65536)

/-- A `WM_MOUSEHWHEEL` message whose high `mouse_data` word is
`deltaWord`. -/
def winWheelHorizontal (deltaWord : Nat) : Option MouseEvent :=
  low_level_mouse_handler WM_MOUSEHWHEEL 0 0 (deltaWord * 65536)

/-! ## The Darwin wheel normalizer (`mouse_on_event_callback`,
`src/darwin.rs`)

The `ScrollWheel` branch reads the signed point-delta of axis 1
(vertical, `delta_y`) and axis 2 (horizontal, `delta_x`) and
classifies by sign; both zero models an axis-3-only scroll, which is
dropped. -/

/-- The `CGEventType::ScrollWheel` branch of
`mouse_on_event_callback`. -/
def darwinScrollEvent (delta_y delta_x : Int) : Option MouseEvent :=
  if delta_y > 0 then some (.Scroll .Up)
  else if delta_y < 0 then some (.Scroll .Down)
  else if delta_x < 0 then some (.Scroll .Right)
  else if delta_x > 0 then some (.Scroll .Left)
  else none

/-! ## Dispatch fan-out

`for callback in callbacks.lock().unwrap().values() { callback(&event) }`
(`src/nix/mod.rs`; the same loop appears in `src/windows.rs` and
`src/darwin.rs`).  An invocation is recorded as the registry entry that
was called paired with the event it received. -/

/-- The list of callback invocations one dispatched event produces, in
registry iteration order. -/
def dispatchEvent (reg : List (Nat × Nat)) (ev : NixMouseEvent) :
    List ((Nat × Nat) × NixMouseEvent) :=
  reg.map (fun p => (p, ev))

/-! ## Registry lemmas -/

theorem lookup_insert_self (id v : Nat) (m : List (Nat × Nat)) :
    lookupId id (insertId id v m) = some v := by
  induction m with
  | nil => simp [lookupId, insertId]
  | cons p rest ih =>
    by_cases h : p.1 = id
    · simp [lookupId, insertId, h]
    · simpa [lookupId, insertId, h] using ih

theorem lookup_insert_ne (j id v : Nat) (m : List (Nat × Nat))
    (hne : j ≠ id) : lookupId j (insertId id v m) = lookupId j m := by
  induction m with
  | nil => simp [lookupId, insertId, Ne.symm hne]
  | cons p rest ih =>
    by_cases h : p.1 = id
    · simp [lookupId, insertId, h, Ne.symm hne]
    · by_cases h2 : p.1 = j
      · simp [lookupId, insertId, h, h2, hne]
      · simpa [lookupId, insertId, h, h2] using ih

theorem lookup_remove_self (id : Nat) (m : List (Nat × Nat)) :
    lookupId id (removeId id m) = none := by
  induction m with
  | nil => rfl
  | cons p rest ih =>
    by_cases h : p.1 = id
    · simpa [removeId, List.filter_cons, h] using ih
    · simpa [lookupId, removeId, List.filter_cons, h] using ih

theorem lookup_remove_ne (j id : Nat) (m : List (Nat × Nat))
    (hne : j ≠ id) : lookupId j (removeId id m) = lookupId j m := by
  induction m with
  | nil => rfl
  | cons p rest ih =>
    by_cases h : p.1 = id
    · simpa [lookupId, removeId, List.filter_cons, h, Ne.symm hne] using ih
    · by_cases h2 : p.1 = j
      · simp [lookupId, removeId, List.filter_cons, h, h2, hne]
      · simpa [lookupId, removeId, List.filter_cons, h, h2] using ih

/-! ## Frame lemmas for the removal operations -/

theorem unhook_frame (s : ManagerState) (id : Nat) :
    (unhook s id).2.callback_counter = s.callback_counter ∧
    (unhook s id).2.is_listening = s.is_listening := by
  unfold unhook
  cases lookupId id s.callbacks <;> simp

theorem unhook_all_frame (s : ManagerState) :
    (unhook_all s).2.callback_counter = s.callback_counter ∧
    (unhook_all s).2.is_listening = s.is_listening := by
  simp [unhook_all]

/-! ## Listener-start lemmas -/

theorem start_nix_listener_fail (openable : String → Bool) :
    ∀ (paths seen : List String),
      (∀ q ∈ seen, openable q = true) →
      (∃ p ∈ paths, openable p = false) →
      start_nix_listener openable paths seen = .error .PermissionDenied := by
  intro paths
  induction paths with
  | nil =>
    rintro seen _ ⟨p, hp, _⟩
    cases hp
  | cons a rest ih =>
    rintro seen hseen ⟨p, hp, hpf⟩
    unfold start_nix_listener
    by_cases hmem : seen.contains a
    · rw [if_pos hmem]
      apply ih seen hseen
      rcases List.mem_cons.1 hp with rfl | hrest
      · have hpmem : p ∈ seen := by simpa using hmem
        rw [hseen p hpmem] at hpf
        cases hpf
      · exact ⟨p, hrest, hpf⟩
    · rw [if_neg hmem]
      by_cases hopen : openable a
      · rw [if_pos hopen]
        apply ih (a :: seen)
        · intro q hq
          rcases List.mem_cons.1 hq with rfl | hq2
          · exact hopen
          · exact hseen q hq2
        · rcases List.mem_cons.1 hp with rfl | hrest
          · rw [hopen] at hpf
            cases hpf
          · exact ⟨p, hrest, hpf⟩
      · rw [if_neg hopen]

/-! ## Trace lemmas -/

theorem runOps_no_hooks (ops : List Op) :
    ∀ s : ManagerState, hookCount ops = 0 → (runOps s ops).ids = [] := by
  induction ops with
  | nil => intro s _; rfl
  | cons op rest ih =>
    intro s hc
    cases op with
    | hook cb openable paths => simp [hookCount] at hc
    | unhook id => exact ih _ (by simpa [hookCount] using hc)
    | unhookAll => exact ih _ (by simpa [hookCount] using hc)

theorem runOps_listening (ops : List Op) :
    ∀ s : ManagerState, s.is_listening = true →
      (runOps s ops).state.is_listening = true ∧ (runOps s ops).starts = 0 := by
  induction ops with
  | nil => intro s hs; exact ⟨hs, rfl⟩
  | cons op rest ih =>
    intro s hs
    cases op with
    | hook cb openable paths =>
      have hstep : hook s cb openable paths =
          (.ok s.callback_counter,
            { s with
              callbacks := insertId s.callback_counter cb s.callbacks
              callback_counter := (s.callback_counter + 1) % 256 },
            false) := by
        unfold hook
        rw [if_pos hs]
      obtain ⟨h1, h2⟩ := ih { s with
        callbacks := insertId s.callback_counter cb s.callbacks
        callback_counter := (s.callback_counter + 1) % 256 } hs
      simp [runOps, hstep, h1, h2]
    | unhook id =>
      have hframe := (unhook_frame s id).2
      exact ih _ (hframe.trans hs)
    | unhookAll =>
      have hframe := (unhook_all_frame s).2
      exact ih _ (hframe.trans hs)

theorem runOps_starts_le_one (ops : List Op) :
    ∀ s : ManagerState, s.is_listening = false → (runOps s ops).starts ≤ 1 := by
  induction ops with
  | nil => intro s _; exact Nat.zero_le 1
  | cons op rest ih =>
    intro s hs
    cases op with
    | hook cb openable paths =>
      unfold runOps hook
      rw [if_neg (by simp [hs])]
      cases hstart : start_nix_listener openable paths [] with
      | ok u =>
        cases u
        have hlisten := runOps_listening rest { s with
          callbacks := insertId s.callback_counter cb s.callbacks
          callback_counter := (s.callback_counter + 1) % 256
          is_listening := true } rfl
        simp [hlisten.2]
      | error e => exact ih s hs
    | unhook id =>
      exact ih _ ((unhook_frame s id).2.trans hs)
    | unhookAll =>
      exact ih _ ((unhook_all_frame s).2.trans hs)

theorem hook_step_ids (rest : List Op)
    (ih : ∀ s : ManagerState,
      s.callback_counter + hookCount rest ≤ 256 →
      (runOps s rest).ids = List.range' s.callback_counter (runOps s rest).ids.length)
    (c : Nat) (s1 : ManagerState) (h1 : s1.callback_counter = (c + 1) % 256)
    (hle : c + (hookCount rest + 1) ≤ 256) :
    c :: (runOps s1 rest).ids = List.range' c ((runOps s1 rest).ids.length + 1) := by
  by_cases hc : c = 255
  · subst hc
    have h0 : hookCount rest = 0 := by omega
    rw [runOps_no_hooks rest s1 h0]
    rfl
  · have hcc : (c + 1) % 256 = c + 1 := by omega
    have hbound : s1.callback_counter + hookCount rest ≤ 256 := by
      rw [h1, hcc]; omega
    have hids := ih s1 hbound
    rw [h1, hcc] at hids
    rw [hids]
    simp [List.length_range', List.range'_succ]

theorem runOps_ids (ops : List Op) :
    ∀ s : ManagerState,
      s.callback_counter + hookCount ops ≤ 256 →
      (runOps s ops).ids = List.range' s.callback_counter (runOps s ops).ids.length := by
  induction ops with
  | nil => intro s _; rfl
  | cons op rest ih =>
    intro s hle
    cases op with
    | hook cb openable paths =>
      simp only [hookCount] at hle
      by_cases hs : s.is_listening
      · have hstep : hook s cb openable paths =
            (.ok s.callback_counter,
              { s with
                callbacks := insertId s.callback_counter cb s.callbacks
                callback_counter := (s.callback_counter + 1) % 256 },
              false) := by
          unfold hook
          rw [if_pos hs]
        simp only [runOps, hstep, List.length_cons]
        exact hook_step_ids rest ih s.callback_counter _ rfl hle
      · cases hstart : start_nix_listener openable paths [] with
        | ok u =>
          cases u
          have hstep : hook s cb openable paths =
              (.ok s.callback_counter,
                { s with
                  callbacks := insertId s.callback_counter cb s.callbacks
                  callback_counter := (s.callback_counter + 1) % 256
                  is_listening := true },
                true) := by
            unfold hook
            rw [if_neg (by simp [hs]), hstart]
          simp only [runOps, hstep, List.length_cons]
          exact hook_step_ids rest ih s.callback_counter _ rfl hle
        | error e =>
          have hstep : hook s cb openable paths = (.error e, s, false) := by
            unfold hook
            rw [if_neg (by simp [hs]), hstart]
          simp only [runOps, hstep]
          exact ih s (by omega)
    | unhook id =>
      have hframe := (unhook_frame s id).1
      have hrec := ih (unhook s id).2
        (by rw [hframe]; simpa [hookCount] using hle)
      rw [hframe] at hrec
      simpa [runOps, hookCount] using hrec
    | unhookAll =>
      have hframe := (unhook_all_frame s).1
      have hrec := ih (unhook_all s).2
        (by rw [hframe]; simpa [hookCount] using hle)
      rw [hframe] at hrec
      simpa [runOps, hookCount] using hrec

theorem lookup_stable_aux (ops : List Op) :
    ∀ (s : ManagerState) (id v : Nat),
      s.callback_counter < 256 → id < 256 →
      lookupId id s.callbacks = some v →
      (∀ op ∈ ops, touches id op = false) →
      hookCount ops ≤ (id + 256 - s.callback_counter) % 256 →
      lookupId id (runOps s ops).state.callbacks = some v := by
  induction ops with
  | nil =>
    intro s id v _ _ hl _ _
    exact hl
  | cons op rest ih =>
    intro s id v hc hid hl htouch hgap
    have htouchRest : ∀ op ∈ rest, touches id op = false :=
      fun op hop => htouch op (List.mem_cons_of_mem _ hop)
    cases op with
    | hook cb openable paths =>
      simp only [hookCount] at hgap
      have hne : id ≠ s.callback_counter := by
        intro h
        rw [h] at hgap
        omega
      have hins : lookupId id
          (insertId s.callback_counter cb s.callbacks) = some v := by
        rw [lookup_insert_ne id s.callback_counter cb s.callbacks hne]
        exact hl
      have hgap2 : hookCount rest ≤
          (id + 256 - (s.callback_counter + 1) % 256) % 256 := by
        omega
      by_cases hs : s.is_listening
      · have hstep : hook s cb openable paths =
            (.ok s.callback_counter,
              { s with
                callbacks := insertId s.callback_counter cb s.callbacks
                callback_counter := (s.callback_counter + 1) % 256 },
              false) := by
          unfold hook
          rw [if_pos hs]
        simp only [runOps, hstep]
        exact ih _ id v (Nat.mod_lt _ (by norm_num)) hid hins htouchRest hgap2
      · cases hstart : start_nix_listener openable paths [] with
        | ok u =>
          cases u
          have hstep : hook s cb openable paths =
              (.ok s.callback_counter,
                { s with
                  callbacks := insertId s.callback_counter cb s.callbacks
                  callback_counter := (s.callback_counter + 1) % 256
                  is_listening := true },
                true) := by
            unfold hook
            rw [if_neg (by simp [hs]), hstart]
          simp only [runOps, hstep]
          exact ih _ id v (Nat.mod_lt _ (by norm_num)) hid hins htouchRest hgap2
        | error e =>
          have hstep : hook s cb openable paths = (.error e, s, false) := by
            unfold hook
            rw [if_neg (by simp [hs]), hstart]
          simp only [runOps, hstep]
          exact ih s id v hc hid hl htouchRest (by omega)
    | unhook j =>
      have hj : j ≠ id := by
        have := htouch (Op.unhook j) (List.mem_cons_self _ _)
        simpa [touches] using this
      have hpres : lookupId id (unhook s j).2.callbacks = some v := by
        unfold unhook
        cases lookupId j s.callbacks with
        | some w =>
          simpa [lookup_remove_ne id j s.callbacks (Ne.symm hj)] using hl
        | none => exact hl
      have hcount : (unhook s j).2.callback_counter = s.callback_counter :=
        (unhook_frame s j).1
      simp only [runOps]
      apply ih _ id v (by rw [hcount]; exact hc) hid hpres htouchRest
      rw [hcount]
      simpa [hookCount] using hgap
    | unhookAll =>
      have := htouch Op.unhookAll (List.mem_cons_self _ _)
      simp [touches] at this

/-! ## Unhook case equations -/

theorem unhook_present (s : ManagerState) (id v : Nat)
    (h : lookupId id s.callbacks = some v) :
    unhook s id = (.ok (), { s with callbacks := removeId id s.callbacks }) := by
  unfold unhook
  rw [h]

theorem unhook_absent (s : ManagerState) (id : Nat)
    (h : lookupId id s.callbacks = none) :
    unhook s id = (.error .UnhookFailed, s) := by
  unfold unhook
  rw [h]

/-! ## Claim theorems -/

/-- C1: `unhook(id)` succeeds exactly when `id` is currently
registered.  If `id` is present, it returns `Ok`, the entry for `id` is
gone, every other entry is untouched, and a second `unhook(id)` fails
with `UnhookFailed`/`NotFound`.  If `id` is absent, it fails with
`UnhookFailed`/`NotFound` and leaves the state completely unchanged.
(`X11MouseManager::unhook`, `WindowsMouseManager::unhook`,
`DarwinMouseManager::unhook`, `UInputMouseManager::unhook`.) -/
theorem unhook_exact (s : ManagerState) (id : Nat) :
    (∀ v, lookupId id s.callbacks = some v →
      (unhook s id).1 = .ok () ∧
      lookupId id (unhook s id).2.callbacks = none ∧
      (∀ j, j ≠ id →
        lookupId j (unhook s id).2.callbacks = lookupId j s.callbacks) ∧
      (unhook ((unhook s id).2) id).1 = .error .UnhookFailed) ∧
    (lookupId id s.callbacks = none →
      (unhook s id).1 = .error .UnhookFailed ∧ (unhook s id).2 = s) := by
  constructor
  · intro v hv
    rw [unhook_present s id v hv]
    refine ⟨rfl, ?_, ?_, ?_⟩
    · exact lookup_remove_self id s.callbacks
    · intro j hj
      exact lookup_remove_ne j id s.callbacks hj
    · rw [unhook_absent _ id (lookup_remove_self id s.callbacks)]
  · intro hv
    rw [unhook_absent s id hv]
    exact ⟨rfl, rfl⟩

/-- Witness for C1 at a concrete registry `[(3, 7), (4, 9)]`: removing
id 3 succeeds and removes only id 3; removing it again fails; removing
the absent id 5 fails. -/
theorem unhook_exact_witness :
    (unhook ⟨[(3, 7), (4, 9)], 2, true⟩ 3).1 = .ok () ∧
    lookupId 3 (unhook ⟨[(3, 7), (4, 9)], 2, true⟩ 3).2.callbacks = none ∧
    lookupId 4 (unhook ⟨[(3, 7), (4, 9)], 2, true⟩ 3).2.callbacks = some 9 ∧
    (unhook ((unhook ⟨[(3, 7), (4, 9)], 2, true⟩ 3).2) 3).1 =
      .error .UnhookFailed ∧
    (unhook ⟨[(3, 7), (4, 9)], 2, true⟩ 5).1 = .error .UnhookFailed := by
  obtain ⟨hpres, _⟩ := unhook_exact ⟨[(3, 7), (4, 9)], 2, true⟩ 3
  obtain ⟨h1, h2, h3, h4⟩ := hpres 7 (by decide)
  refine ⟨h1, h2, ?_, h4, ?_⟩
  · rw [h3 4 (by decide)]
    decide
  · exact ((unhook_exact ⟨[(3, 7), (4, 9)], 2, true⟩ 5).2 (by decide)).1

set_option maxRecDepth 10000 in
/-- C2 fails on the code: the `u8` counter wraps after 256 successful
hooks.  On a fresh manager, the first hook of the trace `hookOps 256`
returns id 0 and registers callback token 0; after all 256 hooks (none
unhooked) id 0 is still registered with token 0, yet the 257th hook
call returns id 0 again — an id equal to that of a still-registered
callback. -/
theorem hook_id_reuse_counterexample :
    (runOps initialState (hookOps 1)).ids = [0] ∧
    lookupId 0 (runOps initialState (hookOps 256)).state.callbacks = some 0 ∧
    (hook (runOps initialState (hookOps 256)).state 256 (fun _ => true) []).1 =
      .ok 0 := by
  exact ⟨rfl, rfl, rfl⟩

/-- C2 amended: as long as at most 256 successful hook calls have
occurred on a fresh manager (the `u8` counter has not wrapped), the ids
returned by the successful hooks of any operation trace are exactly
`0, 1, 2, …` and hence pairwise distinct; once a 257th hook occurs the
counter has wrapped and the returned id collides with the
still-registered id 0. -/
theorem hook_ids_distinct (ops : List Op) (h : hookCount ops ≤ 256) :
    (runOps initialState ops).ids =
      List.range (runOps initialState ops).ids.length ∧
    (runOps initialState ops).ids.Nodup := by
  have hids := runOps_ids ops initialState (by simpa [initialState] using h)
  have h0 : initialState.callback_counter = 0 := rfl
  rw [h0] at hids
  have hr : (runOps initialState ops).ids =
      List.range (runOps initialState ops).ids.length := by
    rw [List.range_eq_range']
    exact hids
  exact ⟨hr, hr ▸ List.nodup_range _⟩

/-- Witness for the amended C2: five hooks on a fresh manager return
`[0, 1, 2, 3, 4]`, pairwise distinct. -/
theorem hook_ids_distinct_witness :
    (runOps initialState (hookOps 5)).ids =
      List.range (runOps initialState (hookOps 5)).ids.length ∧
    (runOps initialState (hookOps 5)).ids.Nodup :=
  hook_ids_distinct (hookOps 5) (by decide)

/-- C3: on the device-file backend, if opening any discovered device
file fails, `hook` returns `Err(PermissionDenied)`, the manager state
is completely unchanged (`is_listening` stays `false` and the callback
is not added), and the listener was not started (ghost flag `false`).
(`UInputMouseManager::hook` propagating `start_nix_listener`.) -/
theorem hook_open_failure (s : ManagerState) (cb : Nat)
    (openable : String → Bool) (paths : List String)
    (hs : s.is_listening = false)
    (hfail : ∃ p ∈ paths, openable p = false) :
    hook s cb openable paths = (.error .PermissionDenied, s, false) := by
  unfold hook
  rw [if_neg (by simp [hs]),
    start_nix_listener_fail openable paths [] (by intro q hq; cases hq) hfail]

/-- Witness for C3: a fresh manager with one unopenable device file. -/
theorem hook_open_failure_witness :
    hook initialState 7 (fun _ => false) ["event-mouse-0"] =
      (.error .PermissionDenied, initialState, false) :=
  hook_open_failure initialState 7 (fun _ => false) ["event-mouse-0"] rfl
    ⟨"event-mouse-0", by simp⟩

/-- C4: listener startup is idempotent and its started-state monotone:
from a listening state, any operation trace keeps `is_listening` true
and never starts the listener again, and from any state at most one
listener start ever happens. -/
theorem listener_starts_at_most_once (s : ManagerState) (ops : List Op) :
    (s.is_listening = true →
      (runOps s ops).state.is_listening = true ∧ (runOps s ops).starts = 0) ∧
    (runOps s ops).starts ≤ 1 := by
  refine ⟨runOps_listening ops s, ?_⟩
  cases hs : s.is_listening with
  | true => simp [(runOps_listening ops s hs).2]
  | false => exact runOps_starts_le_one ops s hs

/-- Witness for C4: a listening manager stays listening with zero
further starts across a hook and an unhook. -/
theorem listener_starts_at_most_once_witness :
    ((runOps ⟨[], 0, true⟩
        [Op.hook 1 (fun _ => true) [], Op.unhook 0]).state.is_listening = true ∧
      (runOps ⟨[], 0, true⟩
        [Op.hook 1 (fun _ => true) [], Op.unhook 0]).starts = 0) ∧
    (runOps ⟨[], 0, true⟩
      [Op.hook 1 (fun _ => true) [], Op.unhook 0]).starts ≤ 1 := by
  have h := listener_starts_at_most_once ⟨[], 0, true⟩
    [Op.hook 1 (fun _ => true) [], Op.unhook 0]
  exact ⟨h.1 rfl, h.2⟩

/-! ## Windows wheel characterization -/

theorem winWheelVertical_eq (w : Nat) :
    winWheelVertical w =
      if w % 65536 / 120 = 1 then some (.Scroll .Up)
      else some (.Scroll .Down) := by
  have hdiv : w * 65536 / 65536 = w := by omega
  unfold winWheelVertical low_level_mouse_handler get_delta
  rw [hdiv]
  norm_num [WM_MOUSEWHEEL, WM_MOUSEMOVE, WM_LBUTTONDOWN, WM_MBUTTONDOWN,
    WM_RBUTTONDOWN, WM_LBUTTONUP, WM_MBUTTONUP, WM_RBUTTONUP, WHEEL_DELTA]

theorem winWheelHorizontal_eq (w : Nat) :
    winWheelHorizontal w =
      if w % 65536 / 120 = 1 then some (.Scroll .Right)
      else some (.Scroll .Left) := by
  have hdiv : w * 65536 / 65536 = w := by omega
  unfold winWheelHorizontal low_level_mouse_handler get_delta
  rw [hdiv]
  norm_num [WM_MOUSEHWHEEL, WM_MOUSEWHEEL, WM_MOUSEMOVE, WM_LBUTTONDOWN,
    WM_MBUTTONDOWN, WM_RBUTTONDOWN, WM_LBUTTONUP, WM_MBUTTONUP,
    WM_RBUTTONUP, WHEEL_DELTA]

/-- C5: the evdev normalizer, case by case: `EV_KEY` records with the
three button codes give `Press` (value 1) or `Release` (any other
value); unknown key codes are dropped; `EV_REL` on `REL_X`/`REL_Y`
gives `RelativeMove` with the value on that axis and 0 on the other;
`REL_WHEEL`/`REL_HWHEEL` give `Scroll` with direction from the sign of
the signed value and magnitude its absolute value; all other codes and
record types are dropped.  (`start_nix_listener`, `src/nix/mod.rs`.) -/
theorem evdev_normalize_cases :
    (∀ v : Int, nixNormalize ⟨EV_KEY, BTN_LEFT, v⟩ =
      some (if v = 1 then .Press .Left else .Release .Left)) ∧
    (∀ v : Int, nixNormalize ⟨EV_KEY, BTN_RIGHT, v⟩ =
      some (if v = 1 then .Press .Right else .Release .Right)) ∧
    (∀ v : Int, nixNormalize ⟨EV_KEY, BTN_MIDDLE, v⟩ =
      some (if v = 1 then .Press .Middle else .Release .Middle)) ∧
    (∀ (c : Nat) (v : Int), c ≠ BTN_LEFT → c ≠ BTN_RIGHT → c ≠ BTN_MIDDLE →
      nixNormalize ⟨EV_KEY, c, v⟩ = none) ∧
    (∀ v : Int, nixNormalize ⟨EV_REL, REL_X, v⟩ =
      some (.RelativeMove v 0)) ∧
    (∀ v : Int, nixNormalize ⟨EV_REL, REL_Y, v⟩ =
      some (.RelativeMove 0 v)) ∧
    (∀ v : Int, 0 < v →
      nixNormalize ⟨EV_REL, REL_WHEEL, v⟩ = some (.Scroll .Up v.natAbs)) ∧
    (∀ v : Int, v < 0 →
      nixNormalize ⟨EV_REL, REL_WHEEL, v⟩ = some (.Scroll .Down v.natAbs)) ∧
    (∀ v : Int, 0 < v →
      nixNormalize ⟨EV_REL, REL_HWHEEL, v⟩ = some (.Scroll .Right v.natAbs)) ∧
    (∀ v : Int, v < 0 →
      nixNormalize ⟨EV_REL, REL_HWHEEL, v⟩ = some (.Scroll .Left v.natAbs)) ∧
    (∀ (c : Nat) (v : Int), c ≠ REL_X → c ≠ REL_Y → c ≠ REL_WHEEL →
      c ≠ REL_HWHEEL → nixNormalize ⟨EV_REL, c, v⟩ = none) ∧
    (∀ (t c : Nat) (v : Int), t ≠ EV_KEY → t ≠ EV_REL →
      nixNormalize ⟨t, c, v⟩ = none) := by
  refine ⟨?_, ?_, ?_, ?_, ?_, ?_, ?_, ?_, ?_, ?_, ?_, ?_⟩
  · intro v
    by_cases hv : v = 1 <;>
      simp [nixNormalize, EV_KEY, EV_REL, BTN_LEFT, BTN_RIGHT, BTN_MIDDLE, hv]
  · intro v
    by_cases hv : v = 1 <;>
      simp [nixNormalize, EV_KEY, EV_REL, BTN_LEFT, BTN_RIGHT, BTN_MIDDLE, hv]
  · intro v
    by_cases hv : v = 1 <;>
      simp [nixNormalize, EV_KEY, EV_REL, BTN_LEFT, BTN_RIGHT, BTN_MIDDLE, hv]
  · intro c v h1 h2 h3
    simp only [BTN_LEFT, BTN_RIGHT, BTN_MIDDLE] at h1 h2 h3
    simp [nixNormalize, EV_KEY, EV_REL, BTN_LEFT, BTN_RIGHT, BTN_MIDDLE,
      h1, h2, h3]
  · intro v
    simp [nixNormalize, EV_KEY, EV_REL, REL_X, REL_Y, REL_WHEEL, REL_HWHEEL]
  · intro v
    simp [nixNormalize, EV_KEY, EV_REL, REL_X, REL_Y, REL_WHEEL, REL_HWHEEL]
  · intro v hv
    simp [nixNormalize, EV_KEY, EV_REL, REL_X, REL_Y, REL_WHEEL, REL_HWHEEL, hv]
  · intro v hv
    have : ¬(0 : Int) < v := by omega
    simp [nixNormalize, EV_KEY, EV_REL, REL_X, REL_Y, REL_WHEEL, REL_HWHEEL, this]
  · intro v hv
    simp [nixNormalize, EV_KEY, EV_REL, REL_X, REL_Y, REL_WHEEL, REL_HWHEEL, hv]
  · intro v hv
    have : ¬(0 : Int) < v := by omega
    simp [nixNormalize, EV_KEY, EV_REL, REL_X, REL_Y, REL_WHEEL, REL_HWHEEL, this]
  · intro c v h1 h2 h3 h4
    simp only [REL_X, REL_Y, REL_WHEEL, REL_HWHEEL] at h1 h2 h3 h4
    simp [nixNormalize, EV_KEY, EV_REL, REL_X, REL_Y, REL_WHEEL, REL_HWHEEL,
      h1, h2, h3, h4]
  · intro t c v h1 h2
    simp only [EV_KEY, EV_REL] at h1 h2
    simp [nixNormalize, EV_KEY, EV_REL, h1, h2]

/-- Witness for C5 at concrete raw records: an unknown key code and an
unknown relative axis are dropped, wheel records map sign to direction
with absolute-value magnitude, and an unknown record type is
dropped. -/
theorem evdev_normalize_cases_witness :
    nixNormalize ⟨EV_KEY, 275, 1⟩ = none ∧
    nixNormalize ⟨EV_REL, REL_WHEEL, 3⟩ = some (.Scroll .Up 3) ∧
    nixNormalize ⟨EV_REL, REL_HWHEEL, -2⟩ = some (.Scroll .Left 2) ∧
    nixNormalize ⟨EV_REL, 5, 9⟩ = none ∧
    nixNormalize ⟨3, 0, 4⟩ = none := by
  obtain ⟨h1, h2, h3, h4, h5, h6, h7, h8, h9, h10, h11, h12⟩ :=
    evdev_normalize_cases
  refine ⟨h4 275 1 (by decide) (by decide) (by decide), ?_, ?_,
    h11 5 9 (by decide) (by decide) (by decide) (by decide),
    h12 3 0 4 (by decide) (by decide)⟩
  · simpa using h7 3 (by norm_num)
  · simpa using h10 (-2) (by norm_num)

/-- C6 as the claim states it: on both the Windows and the Darwin
backends a wheel event is classified by the sign of its signed delta
(positive vertical ⇒ Up, negative ⇒ Down, positive horizontal ⇒
Right, negative ⇒ Left) and an all-zero delta yields no event. -/
def C6Statement : Prop :=
  (∀ dy dx : Int, 0 < dy → darwinScrollEvent dy dx = some (.Scroll .Up)) ∧
  (∀ dy dx : Int, dy < 0 → darwinScrollEvent dy dx = some (.Scroll .Down)) ∧
  (∀ dx : Int, 0 < dx → darwinScrollEvent 0 dx = some (.Scroll .Right)) ∧
  (∀ dx : Int, dx < 0 → darwinScrollEvent 0 dx = some (.Scroll .Left)) ∧
  darwinScrollEvent 0 0 = none ∧
  (∀ d : Int, 0 < d → d ≤ 32767 →
    winWheelVertical (i16AsU16 d) = some (.Scroll .Up)) ∧
  (∀ d : Int, -32768 ≤ d → d < 0 →
    winWheelVertical (i16AsU16 d) = some (.Scroll .Down)) ∧
  (∀ d : Int, 0 < d → d ≤ 32767 →
    winWheelHorizontal (i16AsU16 d) = some (.Scroll .Right)) ∧
  (∀ d : Int, -32768 ≤ d → d < 0 →
    winWheelHorizontal (i16AsU16 d) = some (.Scroll .Left)) ∧
  winWheelVertical (i16AsU16 0) = none ∧
  winWheelHorizontal (i16AsU16 0) = none

/-- C6 is false on the code: at the concrete input `delta_y = 0`,
`delta_x = 1` the Darwin normalizer returns `Scroll(Left)`, not
`Scroll(Right)` (its horizontal mapping is sign-reversed; moreover on
Windows a zero delta yields `Scroll(Down)` rather than no event, and a
positive vertical delta of 240 yields `Scroll(Down)`). -/
theorem wheel_sign_counterexample : ¬ C6Statement := by
  intro h
  have h3 := h.2.2.1 1 (by norm_num)
  exact absurd h3 (by decide)

/-- C6 amended: Darwin classifies the vertical delta by sign, but its
horizontal mapping is reversed from the claim (negative ⇒ Right,
positive ⇒ Left), and only an all-zero delta pair is dropped.  Windows
divides the delta as an *unsigned* 16-bit word by 120 and yields
Up/Right exactly when the quotient is 1 — so a positive vertical delta
maps to Up exactly when it lies in [120, 239], every negative delta
maps to Down/Left, and a zero delta yields Scroll(Down)/Scroll(Left)
instead of being dropped. -/
theorem wheel_sign_amended :
    (∀ dy dx : Int, 0 < dy → darwinScrollEvent dy dx = some (.Scroll .Up)) ∧
    (∀ dy dx : Int, dy < 0 → darwinScrollEvent dy dx = some (.Scroll .Down)) ∧
    (∀ dx : Int, dx < 0 → darwinScrollEvent 0 dx = some (.Scroll .Right)) ∧
    (∀ dx : Int, 0 < dx → darwinScrollEvent 0 dx = some (.Scroll .Left)) ∧
    darwinScrollEvent 0 0 = none ∧
    (∀ d : Int, 0 < d → d ≤ 32767 →
      (winWheelVertical (i16AsU16 d) = some (.Scroll .Up) ↔
        120 ≤ d ∧ d ≤ 239)) ∧
    (∀ d : Int, -32768 ≤ d → d < 0 →
      winWheelVertical (i16AsU16 d) = some (.Scroll .Down)) ∧
    (∀ d : Int, 0 < d → d ≤ 32767 →
      (winWheelHorizontal (i16AsU16 d) = some (.Scroll .Right) ↔
        120 ≤ d ∧ d ≤ 239)) ∧
    (∀ d : Int, -32768 ≤ d → d < 0 →
      winWheelHorizontal (i16AsU16 d) = some (.Scroll .Left)) ∧
    winWheelVertical (i16AsU16 0) = some (.Scroll .Down) ∧
    winWheelHorizontal (i16AsU16 0) = some (.Scroll .Left) := by
  refine ⟨?_, ?_, ?_, ?_, by decide, ?_, ?_, ?_, ?_, by decide, by decide⟩
  · intro dy dx hdy
    simp [darwinScrollEvent, hdy]
  · intro dy dx hdy
    have h1 : ¬(0 : Int) < dy := by omega
    simp [darwinScrollEvent, h1, hdy]
  · intro dx hdx
    simp [darwinScrollEvent, hdx]
  · intro dx hdx
    have h1 : ¬dx < (0 : Int) := by omega
    simp [darwinScrollEvent, h1, hdx]
  · intro d h1 h2
    have hiff : i16AsU16 d % 65536 / 120 = 1 ↔ 120 ≤ d ∧ d ≤ 239 := by
      unfold i16AsU16
      omega
    rw [winWheelVertical_eq]
    by_cases hc : i16AsU16 d % 65536 / 120 = 1
    · simp [hc, hiff.1 hc]
    · have hne : ¬(120 ≤ d ∧ d ≤ 239) := fun hh => hc (hiff.2 hh)
      simp [hc, hne]
  · intro d h1 h2
    have hne : ¬ i16AsU16 d % 65536 / 120 = 1 := by
      unfold i16AsU16
      omega
    rw [winWheelVertical_eq, if_neg hne]
  · intro d h1 h2
    have hiff : i16AsU16 d % 65536 / 120 = 1 ↔ 120 ≤ d ∧ d ≤ 239 := by
      unfold i16AsU16
      omega
    rw [winWheelHorizontal_eq]
    by_cases hc : i16AsU16 d % 65536 / 120 = 1
    · simp [hc, hiff.1 hc]
    · have hne : ¬(120 ≤ d ∧ d ≤ 239) := fun hh => hc (hiff.2 hh)
      simp [hc, hne]
  · intro d h1 h2
    have hne : ¬ i16AsU16 d % 65536 / 120 = 1 := by
      unfold i16AsU16
      omega
    rw [winWheelHorizontal_eq, if_neg hne]

/-- Witness for the amended C6 at concrete deltas. -/
theorem wheel_sign_amended_witness :
    darwinScrollEvent 3 0 = some (.Scroll .Up) ∧
    darwinScrollEvent 0 (-2) = some (.Scroll .Right) ∧
    winWheelVertical (i16AsU16 (-120)) = some (.Scroll .Down) ∧
    (winWheelVertical (i16AsU16 120) = some (.Scroll .Up) ↔
      120 ≤ (120 : Int) ∧ (120 : Int) ≤ 239) := by
  obtain ⟨h1, _, h3, _, _, h6, h7, _⟩ := wheel_sign_amended
  exact ⟨h1 3 0 (by norm_num), h3 (-2) (by norm_num),
    h7 (-120) (by norm_num) (by norm_num), h6 120 (by norm_num) (by norm_num)⟩

/-- Each registered id occurs in exactly one invocation of a
dispatch. -/
theorem countP_keys_eq_one (reg : List (Nat × Nat)) (k : Nat)
    (hnodup : KeysNodup reg) (hk : k ∈ reg.map (fun p => p.1)) :
    reg.countP (fun r => r.1 == k) = 1 := by
  induction reg with
  | nil => cases hk
  | cons q rest ih =>
    have hq : q.1 ∉ rest.map (fun p => p.1) :=
      (List.nodup_cons.1 hnodup).1
    have hrest : KeysNodup rest := (List.nodup_cons.1 hnodup).2
    rcases List.mem_cons.1 hk with rfl | hk2
    · have hzero : rest.countP (fun r => r.1 == q.1) = 0 := by
        rw [List.countP_eq_zero]
        intro r hr
        simp only [beq_iff_eq]
        intro hcontra
        exact hq (hcontra ▸ List.mem_map_of_mem _ hr)
      simp [List.countP_cons, hzero]
    · have hne : ¬(q.1 == k) = true := by
        simp only [beq_iff_eq]
        intro hcontra
        exact hq (hcontra ▸ hk2)
      simp [List.countP_cons, hne, ih hrest hk2]

/-- C7: dispatch fan-out is exactly-once per event: a dispatch produces
one invocation per registry entry, every invocation carries the
dispatched event, with distinct registry keys each registered id is
invoked exactly once, and after `unhook(id)` removes an entry no
invocation for `id` occurs in later dispatches.  (The `values()` loop
of `start_nix_listener` / `low_level_mouse_handler`.) -/
theorem dispatch_exactly_once (reg : List (Nat × Nat)) (ev : NixMouseEvent)
    (hnodup : KeysNodup reg) :
    (dispatchEvent reg ev).length = reg.length ∧
    (∀ q ∈ dispatchEvent reg ev, q.2 = ev ∧ q.1 ∈ reg) ∧
    (∀ p ∈ reg,
      (dispatchEvent reg ev).countP (fun q => q.1.1 == p.1) = 1) ∧
    (∀ id : Nat,
      (dispatchEvent (removeId id reg) ev).countP
        (fun q => q.1.1 == id) = 0) := by
  refine ⟨?_, ?_, ?_, ?_⟩
  · unfold dispatchEvent
    exact List.length_map reg _
  · intro q hq
    unfold dispatchEvent at hq
    obtain ⟨r, hr, rfl⟩ := List.mem_map.1 hq
    exact ⟨rfl, hr⟩
  · intro p hp
    unfold dispatchEvent
    rw [List.countP_map]
    exact countP_keys_eq_one reg p.1 hnodup (List.mem_map_of_mem _ hp)
  · intro id
    unfold dispatchEvent removeId
    rw [List.countP_map, List.countP_eq_zero]
    intro a ha
    have h2 := (List.mem_filter.1 ha).2
    simpa using h2

/-- Witness for C7: dispatching to the two-entry registry
`[(0, 10), (1, 11)]` yields two invocations, invokes id 0 exactly
once, and after removing id 0 no invocation for id 0 occurs. -/
theorem dispatch_exactly_once_witness :
    (dispatchEvent [(0, 10), (1, 11)] (.Press .Left)).length = 2 ∧
    (∀ q ∈ dispatchEvent [(0, 10), (1, 11)] (.Press .Left),
      q.2 = .Press .Left ∧ q.1 ∈ [(0, 10), (1, 11)]) ∧
    (dispatchEvent [(0, 10), (1, 11)] (.Press .Left)).countP
      (fun q => q.1.1 == 0) = 1 ∧
    (dispatchEvent (removeId 0 [(0, 10), (1, 11)]) (.Press .Left)).countP
      (fun q => q.1.1 == 0) = 0 := by
  have h := dispatch_exactly_once [(0, 10), (1, 11)] (.Press .Left)
    (by unfold KeysNodup; decide)
  exact ⟨h.1, h.2.1, h.2.2.1 (0, 10) (by decide), h.2.2.2 0⟩

/-- C8: `unhook_all` always returns `Ok` and empties the registry, and
afterwards `unhook(id)` fails with `UnhookFailed`/`NotFound` for every
id.  (`X11MouseManager::unhook_all`, `DarwinMouseManager::unhook_all`.) -/
theorem unhook_all_clears (s : ManagerState) :
    (unhook_all s).1 = .ok () ∧
    (unhook_all s).2.callbacks = [] ∧
    (∀ id : Nat, (unhook ((unhook_all s).2) id).1 = .error .UnhookFailed) := by
  refine ⟨rfl, rfl, ?_⟩
  intro id
  rw [unhook_absent ((unhook_all s).2) id rfl]

set_option maxRecDepth 10000 in
/-- C9 fails on the code: on a fresh manager the first hook returns
id 0 and registers callback token 0; after 256 further hooks — none of
which is an `unhook(0)` or `unhook_all` (`hookOps` contains only hook
operations) — the entry at id 0 no longer holds token 0: the 257th
hook wrapped the `u8` counter back to 0 and silently replaced the
entry. -/
theorem hook_entry_replaced_counterexample :
    lookupId 0 (runOps initialState (hookOps 1)).state.callbacks = some 0 ∧
    (∀ op ∈ hookOps 257, touches 0 op = false) ∧
    lookupId 0 (runOps initialState (hookOps 257)).state.callbacks ≠ some 0 := by
  refine ⟨rfl, by decide, ?_⟩
  intro h
  have h2 : lookupId 0
      (runOps initialState (hookOps 257)).state.callbacks = some 256 := rfl
  rw [h2] at h
  cases h

/-- C9 amended: an id returned by a successful hook stays mapped to the
same callback under every subsequent operation sequence that does not
`unhook` that id or `unhook_all` *and contains at most 255 further
hook calls*; the 256th subsequent hook wraps the `u8` counter back to
the id and replaces the entry. -/
theorem hook_entry_stable (s : ManagerState) (cb : Nat)
    (openable : String → Bool) (paths : List String) (id : Nat)
    (s1 : ManagerState) (b : Bool)
    (hc : s.callback_counter < 256)
    (hhook : hook s cb openable paths = (.ok id, s1, b)) :
    ∀ ops : List Op, (∀ op ∈ ops, touches id op = false) →
      hookCount ops ≤ 255 →
      lookupId id (runOps s1 ops).state.callbacks = some cb := by
  intro ops htouch hcount
  unfold hook at hhook
  by_cases hs : s.is_listening
  · rw [if_pos hs] at hhook
    simp only [Prod.mk.injEq, Except.ok.injEq] at hhook
    obtain ⟨hid, hs1, _⟩ := hhook
    rw [← hid] at htouch ⊢
    rw [← hs1]
    apply lookup_stable_aux ops _ s.callback_counter cb
      (Nat.mod_lt _ (by norm_num)) hc
      (lookup_insert_self s.callback_counter cb s.callbacks) htouch
    have hgap : (s.callback_counter + 256 -
        (s.callback_counter + 1) % 256) % 256 = 255 := by omega
    rw [hgap]
    exact hcount
  · rw [if_neg (by simp [hs])] at hhook
    cases hstart : start_nix_listener openable paths [] with
    | ok u =>
      cases u
      rw [hstart] at hhook
      simp only [Prod.mk.injEq, Except.ok.injEq] at hhook
      obtain ⟨hid, hs1, _⟩ := hhook
      rw [← hid] at htouch ⊢
      rw [← hs1]
      apply lookup_stable_aux ops _ s.callback_counter cb
        (Nat.mod_lt _ (by norm_num)) hc
        (lookup_insert_self s.callback_counter cb s.callbacks) htouch
      have hgap : (s.callback_counter + 256 -
          (s.callback_counter + 1) % 256) % 256 = 255 := by omega
      rw [hgap]
      exact hcount
    | error e =>
      rw [hstart] at hhook
      simp at hhook

/-- Witness for the amended C9: after hooking token 42 (id 0) on a
fresh manager, an unrelated unhook and one further hook leave id 0
mapped to token 42. -/
theorem hook_entry_stable_witness :
    lookupId 0 (runOps (hook initialState 42 (fun _ => true) []).2.1
      [Op.unhook 5, Op.hook 7 (fun _ => true) []]).state.callbacks =
      some 42 := by
  exact hook_entry_stable initialState 42 (fun _ => true) [] 0
    (hook initialState 42 (fun _ => true) []).2.1
    (hook initialState 42 (fun _ => true) []).2.2
    (by decide) rfl
    [Op.unhook 5, Op.hook 7 (fun _ => true) []]
    (by decide) (by decide)

/-- C10: `unhook` and `unhook_all` change only the callback mapping:
`callback_counter` and `is_listening` are untouched, and consequently
a later hook call returns the same result component and start
behavior whether or not a removal happened in between. -/
theorem removal_frame (s : ManagerState) (id : Nat) :
    (unhook s id).2.callback_counter = s.callback_counter ∧
    (unhook s id).2.is_listening = s.is_listening ∧
    (unhook_all s).2.callback_counter = s.callback_counter ∧
    (unhook_all s).2.is_listening = s.is_listening ∧
    (∀ (cb : Nat) (openable : String → Bool) (paths : List String),
      (hook ((unhook s id).2) cb openable paths).1 =
        (hook s cb openable paths).1 ∧
      (hook ((unhook s id).2) cb openable paths).2.2 =
        (hook s cb openable paths).2.2 ∧
      (hook ((unhook_all s).2) cb openable paths).1 =
        (hook s cb openable paths).1 ∧
      (hook ((unhook_all s).2) cb openable paths).2.2 =
        (hook s cb openable paths).2.2) := by
  have hu1 := (unhook_frame s id).1
  have hu2 := (unhook_frame s id).2
  have ha1 : (unhook_all s).2.callback_counter = s.callback_counter := rfl
  have ha2 : (unhook_all s).2.is_listening = s.is_listening := rfl
  refine ⟨hu1, hu2, ha1, ha2, ?_⟩
  intro cb openable paths
  unfold hook
  rw [hu1, hu2, ha1, ha2]
  cases hs : s.is_listening with
  | true => exact ⟨rfl, rfl, rfl, rfl⟩
  | false =>
    cases hstart : start_nix_listener openable paths [] with
    | ok u => cases u; exact ⟨rfl, rfl, rfl, rfl⟩
    | error e => exact ⟨rfl, rfl, rfl, rfl⟩
